import Mathlib

/-!
# Verification of the multi-bank GBP rate card pipeline

Shallow embedding of `src/scripts/fetch_multi_bank.py` (the authoritative
implementation): cell-string candidate scoring of the generic bank adapters,
the BOC fixed-column adapter, rate validation, reconciliation against the
previous snapshot (`calculate_changes`), best-rate selection and sorting, and
the `main` control flow around total failure.

Conventions of the embedding:
* Python `float` values are modelled as `ℚ`.  Python's `round(x, n)` is
  modelled as round-half-to-even on the exact decimal value (`pyRound`).
* Python's `float(s)` applied to the rate-table cell strings is modelled by
  `parseDecimal`, a parser for optionally signed plain decimal literals
  (the only numeric form occurring in rate tables); a `ValueError` is `none`.
* File-system and network effects are modelled by explicit parameters:
  an adapter takes the list of extracted table rows (each a list of cell
  strings, as produced by BeautifulSoup `get_text(strip=True)`), `main` takes
  the prior on-disk document and the fetched quotes, and
  `load_previous_data` takes the outcome of reading the previous file.
-/

/-! ## String utilities (substring test, comma stripping, lowercasing) -/

/-- `chStarts s pat`: the character list `s` starts with `pat`. -/
def chStarts : List Char → List Char → Bool
  | _, [] => true
  | [], _ :: _ => false
  | c :: cs, p :: ps => c == p && chStarts cs ps

/-- `chHasSub s pat`: `pat` occurs as a contiguous run inside `s`. -/
def chHasSub : List Char → List Char → Bool
  | [], pat => pat.isEmpty
  | c :: rest, pat => chStarts (c :: rest) pat || chHasSub rest pat

/-- Python's `pat in s` substring test on strings. -/
def strContains (s pat : String) : Bool :=
  chHasSub s.data pat.data

/-- Python's `text.replace(',', '')`. -/
def stripCommas (s : String) : String :=
  ⟨s.data.filter (fun c => c ≠ ',')⟩

/-- Python's `s.lower()` (ASCII letters; CJK characters are fixed points). -/
def lowerStr (s : String) : String :=
  ⟨s.data.map Char.toLower⟩

/-- Python's `' '.join(cell_texts)`. -/
def joinSpace (l : List String) : String :=
  String.intercalate " " l

/-! ## Decimal parsing: the model of Python `float(s)` on cell strings -/

/-- Value of a non-empty all-digit character run, `none` otherwise. -/
def digitsToNat (cs : List Char) : Option ℕ :=
  if cs.isEmpty then none
  else cs.foldl
    (fun acc c => acc.bind fun n =>
      if c.isDigit then some (n * 10 + (c.toNat - 48)) else none)
    (some 0)

/-- Split a character list at the first `'.'` (the dot is dropped). -/
def splitDot : List Char → List Char × Option (List Char)
  | [] => ([], none)
  | c :: rest =>
    if c = '.' then ([], some rest)
    else
      let p := splitDot rest
      (c :: p.1, p.2)

/-- Unsigned decimal literal: `123`, `123.45`, `123.`, `.45`. -/
def parseUnsigned (cs : List Char) : Option ℚ :=
  match splitDot cs with
  | (ip, none) => (digitsToNat ip).map (fun n => (n : ℚ))
  | (ip, some fp) =>
    if ip.isEmpty && fp.isEmpty then none
    else
      match (if ip.isEmpty then some 0 else digitsToNat ip),
            (if fp.isEmpty then some 0 else digitsToNat fp) with
      | some n, some f => some ((n : ℚ) + (f : ℚ) / (10 : ℚ) ^ fp.length)
      | _, _ => none

/-- Model of Python `float(s)` on plain decimal literals (the only numeric
form in the banks' rate tables); `none` models a raised `ValueError`. -/
def parseDecimal (s : String) : Option ℚ :=
  match s.data with
  | [] => none
  | c :: rest =>
    if c = '-' then (parseUnsigned rest).map (fun q => -q)
    else if c = '+' then parseUnsigned rest
    else parseUnsigned (c :: rest)

/-! ## Python rounding -/

/-- Round to the nearest integer, ties to even (Python's rounding mode). -/
def roundHalfEven (q : ℚ) : ℤ :=
  let f := ⌊q⌋
  let frac := q - (f : ℚ)
  if frac < 1 / 2 then f
  else if 1 / 2 < frac then f + 1
  else if f % 2 = 0 then f else f + 1

/-- Model of Python `round(q, ndigits)` on the exact decimal value. -/
def pyRound (q : ℚ) (ndigits : ℕ) : ℚ :=
  (roundHalfEven (q * (10 : ℚ) ^ ndigits) : ℚ) / (10 : ℚ) ^ ndigits

/-! ## Validation (`validate_rate`, lines 120-125) -/

/-- `VALID_RATE_RANGE = (5.0, 15.0)` — plausible CNY-per-GBP range. -/
def VALID_RATE_RANGE : ℚ × ℚ := (5, 15)

/-- `validate_rate(rate, bank_code)`: `True` iff the rate lies in the closed
plausible range; the `bank_code` argument only feeds the printed warning. -/
def validate_rate (rate : ℚ) (bankCode : String) : Bool :=
  decide (VALID_RATE_RANGE.1 ≤ rate ∧ rate ≤ VALID_RATE_RANGE.2)

/-! ## Generic candidate scoring (shared body of `fetch_icbc`, `fetch_ccb`,
`fetch_cmb`, `fetch_bocom`, `fetch_abc`, e.g. lines 200-218) -/

/-- One cell of the generic scan: `float(text.replace(',', ''))`, accept only
when `500 < val < 1500`, convert by `val / 100`, validate, and round to 4
places.  `none` models every way the Python loop falls through to the next
cell (a `ValueError`, an out-of-range raw value, or a failed validation). -/
def cellCandidate (bankCode : String) (text : String) : Option ℚ :=
  match parseDecimal (stripCommas text) with
  | none => none
  | some val =>
    if 500 < val ∧ val < 1500 then
      let rate := val / 100
      if validate_rate rate bankCode then some (pyRound rate 4) else none
    else none

/-- The generic adapters' inner loop `for i, text in enumerate(cell_texts)`:
return on the first cell yielding an accepted candidate. -/
def scanCells (bankCode : String) : List String → Option ℚ
  | [] => none
  | t :: rest =>
    match cellCandidate bankCode t with
    | some r => some r
    | none => scanCells bankCode rest

/-- Follows the spec's words (§4.3 tie-break policy), for comparison with
`scanCells`: among all candidates of the row that pass, select the maximum. -/
def specMaxCandidate (bankCode : String) (cells : List String) : Option ℚ :=
  match cells.filterMap (cellCandidate bankCode) with
  | [] => none
  | r :: rs => some (rs.foldl max r)

/-- `fetch_icbc` (lines 178-223) restricted to its parsing core: the rows are
the `<tr>` elements already rendered to cell strings.  A row participates when
it has at least 5 cells and its space-joined lowercased text mentions the
currency; the first accepted candidate is returned, otherwise the scan
continues with the remaining rows.  `none` models the adapter's `return None`. -/
def fetch_icbc : List (List String) → Option ℚ
  | [] => none
  | cells :: rest =>
    if cells.length < 5 then fetch_icbc rest
    else
      let row_text := lowerStr (joinSpace cells)
      if strContains row_text "英镑" || strContains row_text "gbp" then
        match scanCells "ICBC" cells with
        | some r => some r
        | none => fetch_icbc rest
      else fetch_icbc rest

/-! ## BOC fixed-column adapter (`fetch_boc`, lines 130-175) -/

/-- The BOC row filter: `cell_texts[0]` must mention 英镑 or GBP. -/
def bocRowIsGbp (cells : List String) : Bool :=
  strContains (cells.headD "") "英镑" || strContains (cells.headD "") "GBP"

/-- `fetch_boc`: rows with fewer than 7 cells or a non-GBP first cell are
skipped; on the first GBP row, column 3 (现汇卖出价) is parsed and divided by
100.  A parse failure raises `ValueError` into the adapter's outer
`except Exception` (→ `none`), and a validation failure is `return None` —
in both cases the remaining rows are NOT scanned. -/
def fetch_boc : List (List String) → Option ℚ
  | [] => none
  | cells :: rest =>
    if cells.length < 7 then fetch_boc rest
    else if !bocRowIsGbp cells then fetch_boc rest
    else
      match parseDecimal (stripCommas (cells.getD 3 "")) with
      | none => none
      | some rate_per_100 =>
        let rate := rate_per_100 / 100
        if validate_rate rate "BOC" then some (pyRound rate 4) else none

/-! ## Data model

`RateQuote` models the per-bank result dict built by the adapters.  The
display metadata (`bank_name`, `short_name`, `rate_type`, `publish_time`,
`source_url`, `color`, `status`) are per-bank constants that no claim touches,
so only the reconciliation-relevant fields are carried.  `rate_change` /
`rate_change_percent` are `none` when the corresponding dict keys are absent
(as on every freshly fetched quote). -/
structure RateQuote where
  bank_code : String
  rate : ℚ
  rate_change : Option ℚ := none
  rate_change_percent : Option ℚ := none
  deriving Repr, DecidableEq

/-! ## Reconciliation (`calculate_changes`, lines 468-485) -/

/-- The dict comprehension `\x7bb['bank_code']: b for b in previous_data['banks']\x7d`:
on duplicate codes the LAST entry wins, so a lookup finds the last quote with
the given code. -/
def dictLookup (prev : List RateQuote) (code : String) : Option RateQuote :=
  prev.reverse.find? (fun b => b.bank_code == code)

/-- The loop body of `calculate_changes` for one current quote: when the
previous snapshot holds the same `bank_code` with positive rate, set
`rate_change = round(new - old, 4)` and
`rate_change_percent = round((new - old) / old * 100, 2)`; otherwise leave
the quote untouched.  (In persisted snapshots every quote has a `rate` key,
so `.get('rate', 0)` is the stored rate.) -/
def annotate (prev : List RateQuote) (bank : RateQuote) : RateQuote :=
  match dictLookup prev bank.bank_code with
  | none => bank
  | some pb =>
    let old_rate := pb.rate
    if 0 < old_rate then
      let change := bank.rate - old_rate
      { bank with
        rate_change := some (pyRound change 4)
        rate_change_percent := some (pyRound (change / old_rate * 100) 2) }
    else bank

/-- `calculate_changes(current_banks, previous_data)`: `previous` is the
`banks` list of the parsed previous document, or `none` when
`not previous_data or 'banks' not in previous_data` — in that case the
current quotes are returned unchanged. -/
def calculate_changes (current : List RateQuote) (previous : Option (List RateQuote)) :
    List RateQuote :=
  match previous with
  | none => current
  | some prev => current.map (annotate prev)

/-! ## Sorting and best-rate selection (`main` line 521, `find_best_rate`
lines 448-454) -/

/-- Stable insertion into a rate-sorted list: the new element (earlier in the
original list) goes before the first element with an equal-or-larger rate,
modelling the stability of Python `list.sort`. -/
def insertByRate (b : RateQuote) : List RateQuote → List RateQuote
  | [] => [b]
  | c :: cs => if b.rate ≤ c.rate then b :: c :: cs else c :: insertByRate b cs

/-- `banks.sort(key=lambda x: x['rate'])` — stable ascending sort by rate. -/
def sortByRate (l : List RateQuote) : List RateQuote :=
  l.foldr insertByRate []

/-- `find_best_rate`: `min(banks, key=lambda x: x['rate'])`, which keeps the
FIRST element among ties (it replaces the accumulator only on strictly
smaller rate); `None` on an empty list. -/
def find_best_rate (banks : List RateQuote) : Option RateQuote :=
  match banks with
  | [] => none
  | b :: bs => some (bs.foldl (fun acc x => if x.rate < acc.rate then x else acc) b)

/-! ## Output documents and the `main` control flow (lines 500-579) -/

/-- The success document built by `main` (its constant keys `currency`,
`pair`, `rate_type` are fixed strings and omitted). -/
structure Snapshot where
  best_bank : Option String
  best_rate : Option ℚ
  banks : List RateQuote
  bank_count : ℕ
  fetched_at_utc : String
  fetched_at_beijing : String
  status : String
  deriving Repr, DecidableEq

/-- The failure document written by `main` when no prior file exists. -/
structure ErrorDoc where
  status : String
  error_message : String
  fetched_at_utc : String
  banks : List RateQuote
  deriving Repr, DecidableEq

/-- A well-formed on-disk output document (`docs/data.json`). -/
inductive OutFile where
  | errorFile : ErrorDoc → OutFile
  | snapshotFile : Snapshot → OutFile
  deriving Repr, DecidableEq

/-- The `banks` list `calculate_changes` sees for a given prior document:
both document shapes carry a `banks` key, and a missing file gives
`previous_data = None`. -/
def prevBanksOf : Option OutFile → Option (List RateQuote)
  | none => none
  | some (.errorFile e) => some e.banks
  | some (.snapshotFile s) => some s.banks

/-- The `main` function (lines 500-579) as a function from the prior on-disk
document and the fetched quotes to the final on-disk document and the process
exit code.  An empty fetch raises `RuntimeError("Failed to fetch any bank
rates")`; the handler writes the error document only when no prior file
exists, and exits 1.  Otherwise changes are computed, the list is sorted
ascending by rate, the best (minimum-rate) quote is selected, and the success
snapshot is written with exit code 0. -/
def main_run (prior : Option OutFile) (fetched : List RateQuote)
    (now_utc now_beijing : String) : Option OutFile × ℕ :=
  if fetched.isEmpty then
    match prior with
    | none =>
      (some (.errorFile
        { status := "error"
          error_message := "Failed to fetch any bank rates"
          fetched_at_utc := now_utc
          banks := [] }), 1)
    | some f => (some f, 1)
  else
    let banks := sortByRate (calculate_changes fetched (prevBanksOf prior))
    let best := find_best_rate banks
    (some (.snapshotFile
      { best_bank := best.map (fun b => b.bank_code)
        best_rate := best.map (fun b => b.rate)
        banks := banks
        bank_count := banks.length
        fetched_at_utc := now_utc
        fetched_at_beijing := now_beijing
        status := "success" }), 0)

/-! ## Loading the previous file (`load_previous_data`, lines 457-465) -/

/-- Outcome of reading the previous output file: the file may be absent, the
`open`/read may raise (permissions, I/O error), `json.load` may raise on
corrupt content, or a well-formed document is parsed. -/
inductive PrevRead where
  | missing
  | unreadable
  | invalidJson
  | ok (doc : OutFile)
  deriving Repr, DecidableEq

/-- `load_previous_data`: `None` when the file does not exist, and every
raised exception is caught (`except Exception`) and also turned into `None`
with only a printed warning — the function never raises. -/
def load_previous_data : PrevRead → Option OutFile
  | .missing => none
  | .unreadable => none
  | .invalidJson => none
  | .ok d => some d

/-! ## Helper lemmas -/

/-- Rounding the exact value `0` to any number of digits gives `0`. -/
theorem pyRound_zero (n : ℕ) : pyRound 0 n = 0 := by
  simp [pyRound, roundHalfEven]

/-- `validate_rate` is `true` exactly on the closed interval `[5, 15]`. -/
theorem validate_rate_eq_true_iff (r : ℚ) (c : String) :
    validate_rate r c = true ↔ 5 ≤ r ∧ r ≤ 15 := by
  simp [validate_rate, VALID_RATE_RANGE]

/-- A raw per-100 value in the generic gate `(500, 1500)` converts into the
open interval `(5, 15)`. -/
theorem raw_gate_converts_into_range (val : ℚ) (h1 : 500 < val) (h2 : val < 1500) :
    5 < val / 100 ∧ val / 100 < 15 := by
  constructor <;> linarith

/-- Hence `validate_rate` accepts every converted generic candidate. -/
theorem validate_rate_of_raw_gate (val : ℚ) (c : String)
    (h1 : 500 < val) (h2 : val < 1500) : validate_rate (val / 100) c = true := by
  rcases raw_gate_converts_into_range val h1 h2 with ⟨ha, hb⟩
  exact (validate_rate_eq_true_iff _ c).mpr ⟨le_of_lt ha, le_of_lt hb⟩

/-- `annotate` never changes the quote's rate, only its change fields. -/
theorem annotate_rate (prev : List RateQuote) (b : RateQuote) :
    (annotate prev b).rate = b.rate := by
  unfold annotate
  cases dictLookup prev b.bank_code with
  | none => rfl
  | some pb => by_cases h : 0 < pb.rate <;> simp [h]

/-- `annotate` never changes the quote's bank code. -/
theorem annotate_bank_code (prev : List RateQuote) (b : RateQuote) :
    (annotate prev b).bank_code = b.bank_code := by
  unfold annotate
  cases dictLookup prev b.bank_code with
  | none => rfl
  | some pb => by_cases h : 0 < pb.rate <;> simp [h]

/-- What a successful `dictLookup` returns: a member of the previous list
bearing the looked-up code. -/
theorem dictLookup_mem_and_code (prev : List RateQuote) (code : String)
    (pb : RateQuote) (h : dictLookup prev code = some pb) :
    pb ∈ prev ∧ pb.bank_code = code := by
  unfold dictLookup at h
  refine ⟨?_, ?_⟩
  · have := List.mem_of_find?_eq_some h
    exact List.mem_reverse.mp this
  · have := List.find?_some h
    exact eq_of_beq this

/-- `dictLookup` fails exactly when no previous quote bears the code. -/
theorem dictLookup_eq_none_iff (prev : List RateQuote) (code : String) :
    dictLookup prev code = none ↔ ∀ p ∈ prev, p.bank_code ≠ code := by
  unfold dictLookup
  rw [List.find?_eq_none]
  constructor
  · intro h p hp
    have := h p (List.mem_reverse.mpr hp)
    simpa using this
  · intro h p hp
    have := h p (List.mem_reverse.mp hp)
    simpa using this

/-- With unique bank codes, looking up a member's own code returns exactly
that member. -/
theorem dictLookup_self (prev : List RateQuote)
    (hnd : (prev.map RateQuote.bank_code).Nodup)
    (a : RateQuote) (ha : a ∈ prev) : dictLookup prev a.bank_code = some a := by
  cases h : dictLookup prev a.bank_code with
  | none =>
    exact absurd rfl ((dictLookup_eq_none_iff prev a.bank_code).mp h a ha)
  | some pb =>
    rcases dictLookup_mem_and_code prev a.bank_code pb h with ⟨hmem, hcode⟩
    have := List.inj_on_of_nodup_map hnd hmem ha hcode
    rw [this]

/-- The ordering invariant of the persisted `banks` list: ascending by rate. -/
def SortedByRate (l : List RateQuote) : Prop :=
  List.Pairwise (fun a b => a.rate ≤ b.rate) l

/-- Membership through `insertByRate`. -/
theorem mem_insertByRate (b x : RateQuote) (l : List RateQuote) :
    x ∈ insertByRate b l ↔ x = b ∨ x ∈ l := by
  induction l with
  | nil => simp [insertByRate]
  | cons c cs ih =>
    by_cases h : b.rate ≤ c.rate
    · simp [insertByRate, h]
    · simp [insertByRate, h, ih]
      tauto

/-- `insertByRate` preserves the ascending-by-rate invariant. -/
theorem sorted_insertByRate (b : RateQuote) (l : List RateQuote)
    (h : SortedByRate l) : SortedByRate (insertByRate b l) := by
  induction l with
  | nil => simp [insertByRate, SortedByRate]
  | cons c cs ih =>
    rcases (List.pairwise_cons.mp h) with ⟨hc, hcs⟩
    unfold SortedByRate insertByRate
    by_cases hbc : b.rate ≤ c.rate
    · rw [if_pos hbc]
      refine List.pairwise_cons.mpr ⟨?_, h⟩
      intro x hx
      rcases List.mem_cons.mp hx with rfl | hx'
      · exact hbc
      · exact le_trans hbc (hc x hx')
    · rw [if_neg hbc]
      refine List.pairwise_cons.mpr ⟨?_, ih hcs⟩
      intro x hx
      rcases (mem_insertByRate b x cs).mp hx with rfl | hx'
      · exact le_of_not_le hbc
      · exact hc x hx'

/-- The sort step of `main` produces an ascending-by-rate list. -/
theorem sorted_sortByRate (l : List RateQuote) : SortedByRate (sortByRate l) := by
  induction l with
  | nil => simp [sortByRate, SortedByRate]
  | cons b bs ih => exact sorted_insertByRate b (sortByRate bs) ih

/-- `insertByRate` grows the list by exactly one element. -/
theorem length_insertByRate (b : RateQuote) (l : List RateQuote) :
    (insertByRate b l).length = l.length + 1 := by
  induction l with
  | nil => rfl
  | cons c cs ih =>
    by_cases h : b.rate ≤ c.rate <;> simp [insertByRate, h, ih]

/-- Sorting preserves length. -/
theorem length_sortByRate (l : List RateQuote) :
    (sortByRate l).length = l.length := by
  induction l with
  | nil => rfl
  | cons b bs ih => simp [sortByRate, length_insertByRate, List.foldr] at ih ⊢
                    omega

/-- Python's `min` scan never replaces the accumulator when nothing beats it. -/
theorem foldl_min_fixed (b : RateQuote) (bs : List RateQuote)
    (h : ∀ x ∈ bs, b.rate ≤ x.rate) :
    bs.foldl (fun acc x => if x.rate < acc.rate then x else acc) b = b := by
  induction bs with
  | nil => rfl
  | cons c cs ih =>
    have hc : ¬ c.rate < b.rate := not_lt.mpr (h c (List.mem_cons_self c cs))
    simp only [List.foldl_cons, hc, if_neg hc]
    exact ih (fun x hx => h x (List.mem_cons_of_mem c hx))

/-- On an ascending-by-rate list, `find_best_rate` returns the head. -/
theorem find_best_rate_of_sorted (l : List RateQuote) (h : SortedByRate l) :
    find_best_rate l = l.head? := by
  cases l with
  | nil => rfl
  | cons b bs =>
    rcases List.pairwise_cons.mp h with ⟨hb, _⟩
    simp [find_best_rate, foldl_min_fixed b bs hb]

/-- `calculate_changes` preserves the number of quotes. -/
theorem length_calculate_changes (current : List RateQuote)
    (previous : Option (List RateQuote)) :
    (calculate_changes current previous).length = current.length := by
  cases previous <;> simp [calculate_changes]

/-! ## Claim theorems -/

/-- C9: in the generic adapters a raw cell value is converted only when
`500 < val < 1500`, so the converted rate `val / 100` lies strictly between
5 and 15; hence `validate_rate` returns `True` on every such call and its
warning/rejection branch is unreachable on these paths. -/
theorem generic_range_implies_valid (val : ℚ) (bank : String)
    (h1 : 500 < val) (h2 : val < 1500) :
    (5 < val / 100 ∧ val / 100 < 15) ∧ validate_rate (val / 100) bank = true :=
  ⟨raw_gate_converts_into_range val h1 h2, validate_rate_of_raw_gate val bank h1 h2⟩

/-- Witness for C9 at the concrete raw cell value `954.44`. -/
theorem generic_range_implies_valid_witness :
    ((5 : ℚ) < (23861 / 25 : ℚ) / 100 ∧ (23861 / 25 : ℚ) / 100 < 15) ∧
      validate_rate ((23861 / 25 : ℚ) / 100) "ICBC" = true :=
  generic_range_implies_valid (23861 / 25) "ICBC" (by norm_num) (by norm_num)

/-- C10: a missing, unreadable, or corrupt previous snapshot file makes
`load_previous_data` return `None` (it never raises), and reconciliation
with no previous data returns the current quotes unchanged, with no change
fields added. -/
theorem missing_previous_data_harmless :
    (load_previous_data PrevRead.missing = none ∧
     load_previous_data PrevRead.unreadable = none ∧
     load_previous_data PrevRead.invalidJson = none) ∧
    ∀ current : List RateQuote, calculate_changes current none = current := by
  refine ⟨⟨rfl, rfl, rfl⟩, ?_⟩
  intro current
  rfl

/-- C8: for a previous rate of `9.5000` (= `19/2`) and a new rate of `9.6000`
(= `48/5`), reconciliation annotates `rate_change = 0.1000` (= `1/10`, rounded
to 4 places) and `rate_change_percent = 1.05` (= `21/20`, rounded to 2
places). -/
theorem change_arrow_example :
    (annotate [{ bank_code := "BOC", rate := 19/2 }]
        { bank_code := "BOC", rate := 48/5 }).rate_change = some (1/10) ∧
    (annotate [{ bank_code := "BOC", rate := 19/2 }]
        { bank_code := "BOC", rate := 48/5 }).rate_change_percent = some (21/20) := by
  have hlook : dictLookup [{ bank_code := "BOC", rate := 19/2 }] "BOC" =
      some { bank_code := "BOC", rate := 19/2 } := by
    simp [dictLookup]
  have hchange : pyRound (1/10 : ℚ) 4 = 1/10 := by
    have h : ((1/10 : ℚ)) * (10:ℚ)^4 = 1000 := by norm_num
    simp only [pyRound, roundHalfEven, h]
    norm_num
  have hpct : pyRound (20/19 : ℚ) 2 = 21/20 := by
    have h : ((20/19 : ℚ)) * (10:ℚ)^2 = 2000/19 := by norm_num
    have hf : (⌊(2000/19 : ℚ)⌋ : ℤ) = 105 := by norm_num [Int.floor_eq_iff]
    simp only [pyRound, roundHalfEven, h, hf]
    norm_num
  unfold annotate
  rw [hlook]
  norm_num [hchange, hpct]

/-- C1 counterexample: the generic candidate scoring does NOT try the direct
quoting convention.  The per-100 cell string `"954.44"` resolves to
`9.5444` (= `23861/2500`), but the direct-quoted cell string `"9.5444"` is
rejected by the raw gate `500 < val < 1500` and yields no candidate at all —
the two conventions do not both resolve. -/
theorem direct_quote_cell_yields_no_candidate :
    scanCells "ICBC" ["954.44"] = some (23861/2500) ∧
    scanCells "ICBC" ["9.5444"] = none := by
  constructor <;>
  · simp [scanCells, cellCandidate, parseDecimal, parseUnsigned, splitDot,
      digitsToNat, stripCommas, validate_rate, VALID_RATE_RANGE, pyRound,
      roundHalfEven]
    norm_num

/-- C1 amended: per cell, only the per-100-units convention is tried.  A cell
whose numeric value `val` passes the raw gate `500 < val < 1500` resolves to
`round(val / 100, 4)`; a direct-quoted value already in the plausible range
`[5, 15]` fails the raw gate and yields no candidate. -/
theorem per100_convention_only (bank text : String) (val : ℚ)
    (hp : parseDecimal (stripCommas text) = some val) :
    (500 < val → val < 1500 → cellCandidate bank text = some (pyRound (val / 100) 4)) ∧
    (5 ≤ val → val ≤ 15 → cellCandidate bank text = none) := by
  have hcc : cellCandidate bank text =
      if 500 < val ∧ val < 1500 then
        (if validate_rate (val / 100) bank = true then some (pyRound (val / 100) 4)
         else none)
      else none := by
    unfold cellCandidate
    rw [hp]
  constructor
  · intro h1 h2
    rw [hcc, if_pos ⟨h1, h2⟩, if_pos (validate_rate_of_raw_gate val bank h1 h2)]
  · intro h1 h2
    have hno : ¬ (500 < val ∧ val < 1500) := by
      rintro ⟨h, -⟩
      linarith
    rw [hcc, if_neg hno]

/-- Witness for the amended C1 at the cell strings `"954.44"` (accepted via
division by 100) and `"9.5444"` (direct-quoted, rejected). -/
theorem per100_convention_only_witness :
    cellCandidate "ICBC" "954.44" = some (pyRound ((23861/25 : ℚ) / 100) 4) ∧
    cellCandidate "ICBC" "9.5444" = none := by
  constructor
  · exact (per100_convention_only "ICBC" "954.44" (23861/25)
      (by simp [stripCommas, parseDecimal, parseUnsigned, splitDot, digitsToNat]
          norm_num)).1 (by norm_num) (by norm_num)
  · exact (per100_convention_only "ICBC" "9.5444" (23861/2500)
      (by simp [stripCommas, parseDecimal, parseUnsigned, splitDot, digitsToNat]
          norm_num)).2 (by norm_num) (by norm_num)

/-- C2 counterexample: on a row with the two passing raw values `900` and
`1000`, the generic scan returns `9` (the FIRST passing value), while the
maximum passing value is `10` — the scan does not select the maximum. -/
theorem generic_scan_not_max :
    scanCells "CCB" ["900", "1000"] = some 9 ∧
    specMaxCandidate "CCB" ["900", "1000"] = some 10 ∧ (9 : ℚ) ≠ 10 := by
  have h900 : cellCandidate "CCB" "900" = some 9 := by
    simp [cellCandidate, parseDecimal, parseUnsigned, splitDot, digitsToNat,
      stripCommas, validate_rate, VALID_RATE_RANGE, pyRound, roundHalfEven]
    norm_num
  have h1000 : cellCandidate "CCB" "1000" = some 10 := by
    simp [cellCandidate, parseDecimal, parseUnsigned, splitDot, digitsToNat,
      stripCommas, validate_rate, VALID_RATE_RANGE, pyRound, roundHalfEven]
    norm_num
  refine ⟨?_, ?_, by norm_num⟩
  · simp [scanCells, h900]
  · simp [specMaxCandidate, h900, h1000]
    norm_num [max_def]

/-- C2 amended: the generic (non-fixed-column) scoring path selects the first
passing value in cell order: whatever it returns is the candidate of some
cell, and every earlier cell yields no accepted candidate. -/
theorem generic_scan_first_passing (bank : String) (cells : List String) (r : ℚ)
    (h : scanCells bank cells = some r) :
    ∃ pre c post, cells = pre ++ c :: post ∧ cellCandidate bank c = some r ∧
      ∀ c2 ∈ pre, cellCandidate bank c2 = none := by
  induction cells with
  | nil => simp [scanCells] at h
  | cons t rest ih =>
    rw [scanCells] at h
    cases hc : cellCandidate bank t with
    | some r0 =>
      rw [hc] at h
      refine ⟨[], t, rest, rfl, ?_, by simp⟩
      rw [hc]
      simpa using h
    | none =>
      rw [hc] at h
      rcases ih h with ⟨pre, c, post, hsplit, hcand, hpre⟩
      refine ⟨t :: pre, c, post, by rw [hsplit]; rfl, hcand, ?_⟩
      intro c2 hc2
      rcases List.mem_cons.mp hc2 with rfl | hmem
      · exact hc
      · exact hpre c2 hmem

/-- Witness for the amended C2 on the row `["900", "1000"]` with result `9`. -/
theorem generic_scan_first_passing_witness :
    ∃ pre c post, (["900", "1000"] : List String) = pre ++ c :: post ∧
      cellCandidate "CCB" c = some 9 ∧ ∀ c2 ∈ pre, cellCandidate "CCB" c2 = none :=
  generic_scan_first_passing "CCB" ["900", "1000"] 9
    (by simp [scanCells, cellCandidate, parseDecimal, parseUnsigned, splitDot,
          digitsToNat, stripCommas, validate_rate, VALID_RATE_RANGE, pyRound,
          roundHalfEven]
        norm_num)

/-- C3 counterexample: in the BOC adapter a validation failure terminates the
whole search.  The first GBP row's fixed-column candidate `2000.00 / 100 = 20`
fails validation and `fetch_boc` returns no result, even though the next row
holds the perfectly valid candidate `954.44`; scanning that row alone
succeeds. -/
theorem boc_validation_failure_stops_search :
    fetch_boc [["英镑GBP", "a", "b", "2000.00", "d", "e", "t"],
               ["英镑", "a", "b", "954.44", "d", "e", "t"]] = none ∧
    fetch_boc [["英镑", "a", "b", "954.44", "d", "e", "t"]] = some (23861/2500) := by
  constructor <;>
  · simp [fetch_boc, bocRowIsGbp, strContains, chHasSub, chStarts, parseDecimal,
      parseUnsigned, splitDot, digitsToNat, stripCommas, validate_rate,
      VALID_RATE_RANGE, pyRound, roundHalfEven]
    norm_num

/-- C3 amended: a discarded candidate never terminates the GENERIC scan —
the remaining cells (and hence rows) are still tried; but in the BOC adapter
a fixed-column candidate that fails validation makes the adapter return no
result immediately, without scanning the remaining rows. -/
theorem validation_discard_semantics :
    (∀ (bank text : String) (rest : List String), cellCandidate bank text = none →
      scanCells bank (text :: rest) = scanCells bank rest) ∧
    (∀ (cells : List String) (rows : List (List String)) (per100 : ℚ),
      7 ≤ cells.length → bocRowIsGbp cells = true →
      parseDecimal (stripCommas (cells.getD 3 "")) = some per100 →
      validate_rate (per100 / 100) "BOC" = false →
      fetch_boc (cells :: rows) = none) := by
  constructor
  · intro bank text rest h
    simp [scanCells, h]
  · intro cells rows per100 hlen hgbp hp hv
    have h7 : ¬ cells.length < 7 := by omega
    have hb : ¬ ((!bocRowIsGbp cells) = true) := by
      rw [hgbp]
      simp
    have hcond : ¬ (validate_rate (per100 / 100) "BOC" = true) := by
      rw [hv]
      simp
    simp only [fetch_boc]
    rw [if_neg h7, if_neg hb, hp]
    show (if validate_rate (per100 / 100) "BOC" = true
          then some (pyRound (per100 / 100) 4) else none) = none
    rw [if_neg hcond]

/-- Witness for the amended C3: the generic scan walks past the discarded
cell `"2000.00"`, while a BOC row with that fixed-column value ends the BOC
search with no result. -/
theorem validation_discard_semantics_witness :
    scanCells "CCB" ("2000.00" :: ["954.44"]) = scanCells "CCB" ["954.44"] ∧
    fetch_boc [["英镑GBP", "a", "b", "2000.00", "d", "e", "t"]] = none := by
  constructor
  · exact validation_discard_semantics.1 "CCB" "2000.00" ["954.44"]
      (by simp [cellCandidate, parseDecimal, parseUnsigned, splitDot,
            digitsToNat, stripCommas]
          try norm_num)
  · exact validation_discard_semantics.2 ["英镑GBP", "a", "b", "2000.00", "d", "e", "t"]
      [] 2000
      (by norm_num)
      (by decide)
      (by simp [stripCommas, parseDecimal, parseUnsigned, splitDot, digitsToNat]
          try norm_num)
      (by simp [validate_rate, VALID_RATE_RANGE]
          try norm_num)

/-- `annotate` when the previous snapshot holds the code with positive rate:
both change fields are set to the rounded delta expressions. -/
theorem annotate_of_lookup_pos (prev : List RateQuote) (b pb : RateQuote)
    (hl : dictLookup prev b.bank_code = some pb) (hpos : 0 < pb.rate) :
    (annotate prev b).rate_change = some (pyRound (b.rate - pb.rate) 4) ∧
    (annotate prev b).rate_change_percent =
      some (pyRound ((b.rate - pb.rate) / pb.rate * 100) 2) := by
  unfold annotate
  rw [hl]
  constructor
  · show (if 0 < pb.rate then
        { b with
          rate_change := some (pyRound (b.rate - pb.rate) 4)
          rate_change_percent := some (pyRound ((b.rate - pb.rate) / pb.rate * 100) 2) }
      else b).rate_change = _
    rw [if_pos hpos]
  · show (if 0 < pb.rate then
        { b with
          rate_change := some (pyRound (b.rate - pb.rate) 4)
          rate_change_percent := some (pyRound ((b.rate - pb.rate) / pb.rate * 100) 2) }
      else b).rate_change_percent = _
    rw [if_pos hpos]

/-- `annotate` when the code is absent from the previous snapshot. -/
theorem annotate_of_lookup_none (prev : List RateQuote) (b : RateQuote)
    (hl : dictLookup prev b.bank_code = none) : annotate prev b = b := by
  unfold annotate
  rw [hl]

/-- `annotate` when the previous rate is not positive: quote untouched. -/
theorem annotate_of_lookup_nonpos (prev : List RateQuote) (b pb : RateQuote)
    (hl : dictLookup prev b.bank_code = some pb) (hpos : ¬ 0 < pb.rate) :
    annotate prev b = b := by
  unfold annotate
  rw [hl]
  show (if 0 < pb.rate then _ else b) = b
  rw [if_neg hpos]

/-- C5: reconciliation is idempotent in the delta sense — reconciling a
snapshot's quotes against the same snapshot as "previous" yields
`rate_change = 0` and `rate_change_percent = 0` for every bank present in
both (i.e. every bank with a positive rate; persisted snapshots carry at most
one quote per `bank_code`, the `Nodup` hypothesis). -/
theorem reconcile_self_zero_changes (banks : List RateQuote)
    (hnd : (banks.map RateQuote.bank_code).Nodup) :
    ∀ b ∈ calculate_changes banks (some banks), 0 < b.rate →
      b.rate_change = some 0 ∧ b.rate_change_percent = some 0 := by
  intro b hb hpos
  have hb' : b ∈ banks.map (annotate banks) := hb
  rcases List.mem_map.mp hb' with ⟨a, ha, rfl⟩
  have hapos : 0 < a.rate := by
    rw [← annotate_rate banks a]
    exact hpos
  have hlook : dictLookup banks a.bank_code = some a := dictLookup_self banks hnd a ha
  rcases annotate_of_lookup_pos banks a a hlook hapos with ⟨h1, h2⟩
  rw [h1, h2, sub_self, pyRound_zero, zero_div, zero_mul, pyRound_zero]
  exact ⟨rfl, rfl⟩

/-- Witness for C5 on a two-bank snapshot reconciled against itself. -/
theorem reconcile_self_zero_changes_witness :
    (annotate [{ bank_code := "BOC", rate := 19/2 },
               { bank_code := "ICBC", rate := 48/5 }]
        { bank_code := "BOC", rate := 19/2 }).rate_change = some 0 ∧
    (annotate [{ bank_code := "BOC", rate := 19/2 },
               { bank_code := "ICBC", rate := 48/5 }]
        { bank_code := "BOC", rate := 19/2 }).rate_change_percent = some 0 :=
  reconcile_self_zero_changes
    [{ bank_code := "BOC", rate := 19/2 }, { bank_code := "ICBC", rate := 48/5 }]
    (by simp)
    (annotate [{ bank_code := "BOC", rate := 19/2 },
               { bank_code := "ICBC", rate := 48/5 }]
        { bank_code := "BOC", rate := 19/2 })
    (List.mem_map_of_mem _ (List.mem_cons_self _ _))
    (by rw [annotate_rate]
        norm_num)

/-- C6: after reconciliation, the change fields are present on a (fresh) new
quote iff a quote with the same `bank_code` existed in the previous snapshot
with a strictly positive rate; otherwise both fields stay absent. -/
theorem change_fields_presence_iff (prev : List RateQuote)
    (hnd : (prev.map RateQuote.bank_code).Nodup) (b : RateQuote)
    (hc : b.rate_change = none) (hcp : b.rate_change_percent = none) :
    ((annotate prev b).rate_change.isSome = true ↔
      ∃ p ∈ prev, p.bank_code = b.bank_code ∧ 0 < p.rate) ∧
    ((annotate prev b).rate_change_percent.isSome = true ↔
      ∃ p ∈ prev, p.bank_code = b.bank_code ∧ 0 < p.rate) := by
  cases hl : dictLookup prev b.bank_code with
  | none =>
    have hnone := (dictLookup_eq_none_iff prev b.bank_code).mp hl
    rw [annotate_of_lookup_none prev b hl]
    have hnoex : ¬ ∃ p ∈ prev, p.bank_code = b.bank_code ∧ 0 < p.rate := by
      rintro ⟨p, hp, hpcode, -⟩
      exact absurd hpcode (hnone p hp)
    constructor
    · rw [hc]
      exact iff_of_false (by simp) hnoex
    · rw [hcp]
      exact iff_of_false (by simp) hnoex
  | some pb =>
    rcases dictLookup_mem_and_code prev b.bank_code pb hl with ⟨hmem, hcode⟩
    by_cases hpos : 0 < pb.rate
    · rcases annotate_of_lookup_pos prev b pb hl hpos with ⟨h1, h2⟩
      constructor
      · rw [h1]
        exact iff_of_true rfl ⟨pb, hmem, hcode, hpos⟩
      · rw [h2]
        exact iff_of_true rfl ⟨pb, hmem, hcode, hpos⟩
    · rw [annotate_of_lookup_nonpos prev b pb hl hpos]
      have hnoex : ¬ ∃ p ∈ prev, p.bank_code = b.bank_code ∧ 0 < p.rate := by
        rintro ⟨p, hp, hpcode, hppos⟩
        have hpe : p = pb :=
          List.inj_on_of_nodup_map hnd hp hmem (by rw [hpcode, hcode])
        rw [hpe] at hppos
        exact hpos hppos
      constructor
      · rw [hc]
        exact iff_of_false (by simp) hnoex
      · rw [hcp]
        exact iff_of_false (by simp) hnoex

/-- Witness for C6: the previous snapshot holds BOC at `9.5 > 0`, so a fresh
BOC quote gets both change fields. -/
theorem change_fields_presence_iff_witness :
    ((annotate [{ bank_code := "BOC", rate := 19/2 }]
        { bank_code := "BOC", rate := 48/5 }).rate_change.isSome = true ↔
      ∃ p ∈ [({ bank_code := "BOC", rate := 19/2 } : RateQuote)],
        p.bank_code = ({ bank_code := "BOC", rate := 48/5 } : RateQuote).bank_code ∧
          0 < p.rate) ∧
    ((annotate [{ bank_code := "BOC", rate := 19/2 }]
        { bank_code := "BOC", rate := 48/5 }).rate_change_percent.isSome = true ↔
      ∃ p ∈ [({ bank_code := "BOC", rate := 19/2 } : RateQuote)],
        p.bank_code = ({ bank_code := "BOC", rate := 48/5 } : RateQuote).bank_code ∧
          0 < p.rate) :=
  change_fields_presence_iff [{ bank_code := "BOC", rate := 19/2 }]
    (by simp) { bank_code := "BOC", rate := 48/5 } rfl rfl

/-- C4: every success snapshot persisted by a run (exit code 0) has a
non-empty `banks` list sorted ascending by rate, with `best_rate` and
`best_bank` taken from `banks[0]`; and a run with zero quotes exits 1 and
never creates a success snapshot (any snapshot present afterwards is the
untouched prior file). -/
theorem snapshot_sorted_and_best (prior : Option OutFile) (fetched : List RateQuote)
    (now bj : String) :
    (∀ S, main_run prior fetched now bj = (some (OutFile.snapshotFile S), 0) →
      S.banks ≠ [] ∧ SortedByRate S.banks ∧
      S.best_rate = S.banks.head?.map (fun b => b.rate) ∧
      S.best_bank = S.banks.head?.map (fun b => b.bank_code)) ∧
    (fetched = [] →
      (main_run prior fetched now bj).2 = 1 ∧
      ∀ S e, main_run prior fetched now bj = (some (OutFile.snapshotFile S), e) →
        prior = some (OutFile.snapshotFile S)) := by
  by_cases hf : fetched.isEmpty
  · constructor
    · intro S h
      exfalso
      cases prior with
      | none => simp [main_run, hf] at h
      | some f => simp [main_run, hf] at h
    · intro hfe
      constructor
      · cases prior <;> simp [main_run, hf]
      · intro S e h
        cases prior with
        | none => simp [main_run, hf] at h
        | some f =>
          simp only [main_run, hf, if_true, Prod.mk.injEq, Option.some.injEq] at h
          rw [h.1]
  · constructor
    · intro S h
      simp only [main_run, if_neg hf, Prod.mk.injEq, Option.some.injEq,
        OutFile.snapshotFile.injEq] at h
      obtain ⟨hS, -⟩ := h
      subst hS
      dsimp only
      refine ⟨?_, sorted_sortByRate _, ?_, ?_⟩
      · intro hnil
        have hlen : (sortByRate (calculate_changes fetched (prevBanksOf prior))).length
            = fetched.length := by
          rw [length_sortByRate, length_calculate_changes]
        rw [hnil] at hlen
        have : fetched = [] := List.length_eq_zero.mp hlen.symm
        rw [this] at hf
        exact hf rfl
      · rw [find_best_rate_of_sorted _ (sorted_sortByRate _)]
      · rw [find_best_rate_of_sorted _ (sorted_sortByRate _)]
    · intro hfe
      exfalso
      rw [hfe] at hf
      exact hf rfl

/-- The one-quote run used by the C4 witness. -/
def cmbQuote : RateQuote := { bank_code := "CMB", rate := 9 }

/-- The snapshot such a run persists. -/
def cmbSnap : Snapshot :=
  { best_bank := some "CMB"
    best_rate := some 9
    banks := [cmbQuote]
    bank_count := 1
    fetched_at_utc := "t"
    fetched_at_beijing := "b"
    status := "success" }

/-- Witness for C4 on a one-quote run with no prior file. -/
theorem snapshot_sorted_and_best_witness :
    cmbSnap.banks ≠ [] ∧ SortedByRate cmbSnap.banks ∧
    cmbSnap.best_rate = cmbSnap.banks.head?.map (fun b => b.rate) ∧
    cmbSnap.best_bank = cmbSnap.banks.head?.map (fun b => b.bank_code) :=
  (snapshot_sorted_and_best none [cmbQuote] "t" "b").1 cmbSnap rfl

/-- C7: on a total-failure run (zero quotes): with no prior file, an error
document with `status = "error"`, the non-empty message of the raised
`RuntimeError`, the run's timestamp and an empty `banks` list becomes the
on-disk state; with a prior file, the on-disk state is exactly the prior
document; in both cases the process exits 1 (non-zero). -/
theorem total_failure_behavior (prior : Option OutFile) (now bj : String) :
    (main_run prior [] now bj).2 = 1 ∧ (main_run prior [] now bj).2 ≠ 0 ∧
    (prior = none →
      main_run prior [] now bj =
        (some (OutFile.errorFile
          { status := "error"
            error_message := "Failed to fetch any bank rates"
            fetched_at_utc := now
            banks := [] }), 1) ∧
      "Failed to fetch any bank rates" ≠ "") ∧
    (∀ f, prior = some f → main_run prior [] now bj = (some f, 1)) := by
  cases prior with
  | none =>
    refine ⟨rfl, Nat.one_ne_zero, fun _ => ⟨rfl, by decide⟩, ?_⟩
    intro f h
    exact Option.noConfusion h
  | some f0 =>
    refine ⟨rfl, Nat.one_ne_zero, fun h => Option.noConfusion h, ?_⟩
    intro f h
    injection h with h2
    subst h2
    rfl

/-- Witness for C7, once with no prior file and once with a prior error
document that must survive the failed run untouched. -/
theorem total_failure_behavior_witness :
    main_run none [] "t" "b" =
      (some (OutFile.errorFile
        { status := "error"
          error_message := "Failed to fetch any bank rates"
          fetched_at_utc := "t"
          banks := [] }), 1) ∧
    main_run (some (OutFile.errorFile
        { status := "error", error_message := "old", fetched_at_utc := "t0",
          banks := [] })) [] "t" "b" =
      (some (OutFile.errorFile
        { status := "error", error_message := "old", fetched_at_utc := "t0",
          banks := [] }), 1) :=
  ⟨((total_failure_behavior none "t" "b").2.2.1 rfl).1,
   (total_failure_behavior (some (OutFile.errorFile
      { status := "error", error_message := "old", fetched_at_utc := "t0",
        banks := [] })) "t" "b").2.2.2 _ rfl⟩
